import Mathlib

/-!
Verification of the reconciliation core of the roadmap-to-workspace sync
script (notion_sync/core.py).  Python dictionaries and JSON values are
shallowly embedded as the inductive type J below; Python truthiness and
the dict get method are modelled explicitly.  The functions
flatten_roadmap, format_notion_properties, the simple property view,
needs_update and the per-task reconcile loop of sync_roadmap_to_notion
are translated from the source.  Remote writes are modelled by an
explicit store (a map from task id to page object) together with a
failure oracle giving, per task position, whether the single write the
task may issue raises an API error.
-/

namespace NotionSync

/-- JSON-like values, the data the Python code manipulates.  Objects are
association lists; the construction sites below keep keys unique the way
Python dict literals and assignments do. -/
inductive J where
  | null
  | bool (b : Bool)
  | num (n : Int)
  | str (s : String)
  | arr (xs : List J)
  | obj (kvs : List (String × J))

/-- Python truthiness of a value (bool(x)). -/
def J.truthy : J → Bool
  | .null => false
  | .bool b => b
  | .num n => n != 0
  | .str s => s != ""
  | .arr xs => !xs.isEmpty
  | .obj kvs => !kvs.isEmpty

/-- Python x or y: y when x is falsy, else x. -/
def pyOr (a b : J) : J := if a.truthy then a else b

/-- First value bound to a key in an association list (Python dicts keep
keys unique, so first match is the match). -/
def jlookup : List (String × J) → String → Option J
  | [], _ => none
  | (k1, v) :: rest, k => if k1 = k then some v else jlookup rest k

/-- Python dict assignment d[k] = v: replace in place when the key is
present, append otherwise. -/
def jInsert : List (String × J) → String → J → List (String × J)
  | [], k, v => [(k, v)]
  | (k1, v1) :: rest, k, v =>
    if k1 = k then (k, v) :: rest else (k1, v1) :: jInsert rest k v

/-- Python d.get(k, default). On non-dict values Python would raise
AttributeError; every call site in the source guards the receiver, and
the model returns the default there. -/
def J.getD (j : J) (k : String) (d : J) : J :=
  match j with
  | .obj kvs => (jlookup kvs k).getD d
  | _ => d

/-- Python d.get(k), defaulting to None. -/
def J.get (j : J) (k : String) : J := j.getD k .null

/-- Python str() restricted to the scalar values this program puts in
those positions; list and dict renderings are abbreviated, which no
verified property depends on. -/
def J.pyStr : J → String
  | .null => "None"
  | .bool b => if b then "True" else "False"
  | .num n => toString n
  | .str s => s
  | .arr _ => "<list>"
  | .obj _ => "<dict>"

/-- The string content of a J leaf.  Python keeps the raw value; in every
position where this is applied the program itself only ever produces
strings, and non-string values (on which Python would raise a TypeError
inside a join) are rendered as the empty string. -/
def J.asStr : J → String
  | .str s => s
  | _ => ""

/-- Python dict literal with possibly repeated keys (the identifier
property name may coincide with a fixed key): later entries overwrite
earlier ones in place, as in Python. -/
def dictOf (entries : List (String × J)) : J :=
  J.obj (entries.foldl (fun m e => jInsert m e.1 e.2) [])


/-! ## Source loader: Task and flatten_roadmap -/

/-- The Task dataclass of notion_sync/core.py.  The dataclass annotates
every scalar field as str; values a malformed document would put there
are rendered through pyStr (Python would store the raw value unchecked,
which no verified property depends on). -/
structure Task where
  id : String
  title : String
  status : String
  priority : String
  owner : String
  description : String
  dependencies : List String
  phase_name : String
  epic_title : String
deriving DecidableEq, Repr

/-- RoadmapLoadError carrying its message.  The source message quotes the
key name; the quotes are left out here. -/
structure RoadmapLoadError where
  message : String
deriving DecidableEq, Repr

/-- The two ways flatten_roadmap can fail: the RoadmapLoadError it
raises itself on a truthy non-list under phases, epics or tasks, and the
AttributeError Python raises before any of those checks when a .get
method is looked up on a value that is not a dict (a non-dict element of
the phases or epics lists, or a truthy non-dict element of a tasks
list).  An AttributeError is not a load error. -/
inductive FlattenErr where
  | load (e : RoadmapLoadError)
  | attr (message : String)
deriving DecidableEq, Repr

/-- Whether a value is a Python dict, the only values with a .get
method among those this data model contains. -/
def J.isDict : J → Bool
  | .obj _ => true
  | _ => false

/-- The x = d.get(key) or []; if not isinstance(x, list): raise pattern
used for phases, epics and tasks: falsy values are coerced to the empty
list, truthy non-lists are rejected. -/
def coerceList (v : J) : Option (List J) :=
  match pyOr v (J.arr []) with
  | J.arr l => some l
  | _ => none

/-- One iteration of the inner task loop of flatten_roadmap on an entry
that is a dict or falsy (the case where no AttributeError occurs): none
when the entry is skipped (missing or non-string or empty id or title),
some task otherwise.  Python checks falsiness and isinstance(_, str),
which together accept exactly the non-empty strings. -/
def taskOfRawDict (phase_name epic_title : String) (raw : J) : Option Task :=
  let rawD := pyOr raw (J.obj [])
  match rawD.get "id", rawD.get "title" with
  | J.str i, J.str t =>
    if i = "" then none
    else if t = "" then none
    else
      let deps :=
        match coerceList (rawD.get "dependencies") with
        | some l => l.map J.pyStr
        | none => []
      some
        { id := i, title := t,
          status := (rawD.getD "status" (J.str "Not Started")).pyStr,
          priority := (rawD.getD "priority" (J.str "Medium")).pyStr,
          owner := (rawD.getD "owner" (J.str "Unassigned")).pyStr,
          description := (rawD.getD "description" (J.str "")).pyStr,
          dependencies := deps,
          phase_name := phase_name, epic_title := epic_title }
  | _, _ => none

/-- One iteration of the inner task loop of flatten_roadmap: on a truthy
non-dict entry the guarded (raw_task or \x7b\x7d).get("id") raises
AttributeError; a falsy entry is replaced by the empty dict and skipped;
a dict entry is processed. -/
def taskOfRaw (phase_name epic_title : String) (raw : J) :
    Except FlattenErr (Option Task) :=
  if raw.truthy && !raw.isDict then
    Except.error (FlattenErr.attr "get called on a non-dict task entry")
  else
    Except.ok (taskOfRawDict phase_name epic_title raw)

/-- The task loop of flatten_roadmap over the entries of one epic, in
document order, stopping at the first AttributeError. -/
def flattenTasks (phase_name epic_title : String) :
    List J → Except FlattenErr (List Task)
  | [] => Except.ok []
  | r :: rs =>
    match taskOfRaw phase_name epic_title r with
    | Except.error err => Except.error err
    | Except.ok t1 =>
      match flattenTasks phase_name epic_title rs with
      | Except.error err => Except.error err
      | Except.ok rest =>
        Except.ok (match t1 with | some t => t :: rest | none => rest)

/-- The per-epic part of flatten_roadmap: epic.get("epicTitle") raises
AttributeError when the epic element is not a dict; otherwise the tasks
key is checked (truthy non-list raises the RoadmapLoadError) and the
accepted entries are collected in document order. -/
def flattenEpic (phase_name : String) (epic : J) : Except FlattenErr (List Task) :=
  if !epic.isDict then
    Except.error (FlattenErr.attr "get called on a non-dict epic entry")
  else
    let epic_title := (epic.getD "epicTitle" (J.str "")).pyStr
    match coerceList (epic.get "tasks") with
    | none => Except.error (FlattenErr.load ⟨"Expected tasks to be a list in each epic"⟩)
    | some raws => flattenTasks phase_name epic_title raws

/-- The epic loop of flatten_roadmap over one phase. -/
def flattenEpics (phase_name : String) : List J → Except FlattenErr (List Task)
  | [] => Except.ok []
  | e :: es =>
    match flattenEpic phase_name e with
    | Except.error err => Except.error err
    | Except.ok t1 =>
      match flattenEpics phase_name es with
      | Except.error err => Except.error err
      | Except.ok rest => Except.ok (t1 ++ rest)

/-- The per-phase part of flatten_roadmap: phase.get("phaseName") raises
AttributeError when the phase element is not a dict; otherwise the epics
key is checked and the epics processed. -/
def flattenPhase (phase : J) : Except FlattenErr (List Task) :=
  if !phase.isDict then
    Except.error (FlattenErr.attr "get called on a non-dict phase entry")
  else
    let phase_name := (phase.getD "phaseName" (J.str "")).pyStr
    match coerceList (phase.get "epics") with
    | none => Except.error (FlattenErr.load ⟨"Expected epics to be a list in each phase"⟩)
    | some es => flattenEpics phase_name es

/-- The phase loop of flatten_roadmap. -/
def flattenPhases : List J → Except FlattenErr (List Task)
  | [] => Except.ok []
  | p :: ps =>
    match flattenPhase p with
    | Except.error err => Except.error err
    | Except.ok t1 =>
      match flattenPhases ps with
      | Except.error err => Except.error err
      | Except.ok rest => Except.ok (t1 ++ rest)

/-- flatten_roadmap of notion_sync/core.py.  The single accumulating
tasks list of the source is the concatenation, in document order, of the
per-phase and per-epic contributions; roadmap_data.get would itself
raise AttributeError on a non-dict root (load_local_roadmap guarantees a
dict before flatten_roadmap is called). -/
def flatten_roadmap (roadmap_data : J) : Except FlattenErr (List Task) :=
  if !roadmap_data.isDict then
    Except.error (FlattenErr.attr "get called on a non-dict root")
  else
    match coerceList (roadmap_data.get "phases") with
    | none => Except.error (FlattenErr.load ⟨"Expected phases to be a list"⟩)
    | some ps => flattenPhases ps

/-- Whether a flatten result is the RoadmapLoadError of the source; an
AttributeError is a different, uncaught failure. -/
def isLoadError (r : Except FlattenErr (List Task)) : Bool :=
  match r with
  | Except.error (FlattenErr.load _) => true
  | Except.error (FlattenErr.attr _) => false
  | Except.ok _ => false

/-! Spec-side companion definitions, stated from the claim wording and
compared with the code model above. -/

/-- Spec-side for C5: the id and title of a task entry when both are
present as non-empty strings, none otherwise. -/
def entryValidIdTitle (raw : J) : Option (String × String) :=
  match raw.get "id", raw.get "title" with
  | J.str i, J.str t => if i = "" || t = "" then none else some (i, t)
  | _, _ => none

/-- Spec-side for C5: list value of a key, empty when absent or coerced. -/
def listOrEmpty (v : J) : List J :=
  (coerceList v).getD []

/-- Spec-side for C5: the valid task entries of one epic, in order. -/
def specEntriesOfEpic (epic : J) : List (String × String) :=
  (listOrEmpty (epic.get "tasks")).filterMap entryValidIdTitle

/-- Spec-side for C5: the valid task entries of a list of epics. -/
def specEntriesOfEpics : List J → List (String × String)
  | [] => []
  | e :: es => specEntriesOfEpic e ++ specEntriesOfEpics es

/-- Spec-side for C5: the valid task entries of a list of phases. -/
def specEntriesOfPhases : List J → List (String × String)
  | [] => []
  | p :: ps => specEntriesOfEpics (listOrEmpty (p.get "epics")) ++ specEntriesOfPhases ps

/-- Spec-side for C5: every valid task entry of the document, in document
order (phase, then epic, then task). -/
def specValidTaskEntries (d : J) : List (String × String) :=
  specEntriesOfPhases (listOrEmpty (d.get "phases"))

/-- For C7: a task entry Python can process without AttributeError: a
dict, or falsy (replaced by the empty dict by the or guard). -/
def entryOk (raw : J) : Bool := !raw.truthy || raw.isDict

/-- For C7: an epic element Python can walk without AttributeError: it
must be a dict (even falsy non-dicts crash, the epic.get call is
unguarded), and every entry of its coerced tasks list must be
processable. -/
def epicOk (e : J) : Bool :=
  e.isDict && ((coerceList (e.get "tasks")).getD []).all entryOk

/-- For C7: a phase element Python can walk without AttributeError. -/
def phaseOk (p : J) : Bool :=
  p.isDict && ((coerceList (p.get "epics")).getD []).all epicOk

/-- For C7: a root document on which no .get is reached on a non-dict,
so the run can only end in success or in the RoadmapLoadError. -/
def docOk (d : J) : Bool :=
  d.isDict && ((coerceList (d.get "phases")).getD []).all phaseOk

/-- For C7: an epic whose tasks key holds a truthy non-list. -/
def badEpic (e : J) : Bool := (coerceList (e.get "tasks")).isNone

/-- For C7: a phase whose epics key holds a truthy non-list, or one of
whose epics is bad. -/
def badPhase (p : J) : Bool :=
  match coerceList (p.get "epics") with
  | none => true
  | some es => es.any badEpic

/-- For C7: a document on which flatten_roadmap raises: a truthy
non-list under phases, or some phase that is bad. -/
def badDoc (d : J) : Bool :=
  match coerceList (d.get "phases") with
  | none => true
  | some ps => ps.any badPhase

/-! ## Differ: payload builder and normalized comparison view -/

/-- The default identifier property name. -/
def DEFAULT_NOTION_ID_PROPERTY : String := "ID"

/-- A rich_text property holding one text span with the given content. -/
def richTextProp (content : J) : J :=
  J.obj [("rich_text", J.arr [J.obj [("type", J.str "text"), ("text", J.obj [("content", content)])]])]

/-- A title property holding one text span with the given content. -/
def titleProp (content : J) : J :=
  J.obj [("title", J.arr [J.obj [("type", J.str "text"), ("text", J.obj [("content", content)])]])]

/-- A select property with the given option name. -/
def selectProp (name1 : String) : J :=
  J.obj [("select", J.obj [("name", J.str name1)])]

/-- A status property with the given status name. -/
def statusProp (name1 : String) : J :=
  J.obj [("status", J.obj [("name", J.str name1)])]

/-- The helper building multi_select items from dependency names; dead
code in the source (Dependencies is sent as rich_text), kept for
completeness. -/
def dependencies_to_multi_select (dependencies : List String) : List J :=
  (dependencies.filter (fun d => d ≠ "")).map (fun d => J.obj [("name", J.str d)])

/-- format_notion_properties of notion_sync/core.py.  The dict literal is
built with Python assignment semantics, so an identifier property name
equal to one of the fixed keys is overwritten by the later entry, exactly
as a Python dict literal with a repeated key. -/
def format_notion_properties (task : Task) (id_property_name : String := DEFAULT_NOTION_ID_PROPERTY) : J :=
  dictOf
    [ (id_property_name, richTextProp (J.str task.id)),
      ("Task Name", titleProp (J.str task.title)),
      ("Status", statusProp task.status),
      ("Priority", selectProp task.priority),
      ("Owner", selectProp task.owner),
      ("Phase", selectProp task.phase_name),
      ("Epic", selectProp task.epic_title),
      ("Description", richTextProp (pyOr (J.str task.description) (J.str ""))),
      ("Dependencies", richTextProp (J.str (String.intercalate ", " task.dependencies))) ]

/-- Values of the normalized comparison view: strings from the scalar
extractors, sorted name tuples from the multi_select extractor. -/
inductive SVal where
  | s (x : String)
  | tup (xs : List String)
deriving DecidableEq, Repr

/-- The concatenation performed by the Python str join with empty
separator. -/
def strJoin : List String → String
  | [] => ""
  | x :: xs => x ++ strJoin xs

/-- The text of one rich text span: plain_text or text.content or the
empty string. -/
def spanText (span : J) : String :=
  (pyOr (pyOr (span.get "plain_text") ((span.getD "text" (J.obj [])).getD "content" (J.str ""))) (J.str "")).asStr

/-- The nested helper _from_title: first span of the title array,
plain_text falling back to text.content.  A truthy non-list title value
is out of reach of the program and reads as empty here. -/
def from_title (prop : J) : String :=
  match pyOr (prop.get "title") (J.arr []) with
  | J.arr [] => ""
  | J.arr (x :: _) => (pyOr (x.get "plain_text") ((x.getD "text" (J.obj [])).getD "content" (J.str ""))).asStr
  | _ => ""

/-- The nested helper _from_rich_text: join of the span texts. -/
def from_rich_text (prop : J) : String :=
  match pyOr (prop.get "rich_text") (J.arr []) with
  | J.arr spans => strJoin (spans.map spanText)
  | _ => ""

/-- The nested helper _from_select: the option name when the select value
is a dict, empty otherwise. -/
def from_select (prop : J) : String :=
  match pyOr (prop.get "select") (J.obj []) with
  | J.obj kvs => ((J.obj kvs).getD "name" (J.str "")).asStr
  | _ => ""

/-- The nested helper _from_multi_select: the sorted tuple of the item
names; never called by the view in the source (Dependencies is compared
as rich text), kept for completeness. -/
def from_multi_select (prop : J) : List String :=
  match pyOr (prop.get "multi_select") (J.arr []) with
  | J.arr items =>
    (items.filterMap (fun item =>
      match item.get "name" with
      | J.str n => if n = "" then none else some n
      | _ => none)).mergeSort (fun a b => a ≤ b)
  | _ => []

/-- The nested helper _from_status: the status name when the status value
is a dict, empty otherwise. -/
def from_status (prop : J) : String :=
  match pyOr (prop.get "status") (J.obj []) with
  | J.obj kvs => ((J.obj kvs).getD "name" (J.str "")).asStr
  | _ => ""

/-- Python dict assignment on the view being built. -/
def svInsert : List (String × SVal) → String → SVal → List (String × SVal)
  | [], k, v => [(k, v)]
  | (k1, v1) :: rest, k, v =>
    if k1 = k then (k, v) :: rest else (k1, v1) :: svInsert rest k v

/-- Lookup in the view. -/
def svLookup : List (String × SVal) → String → Option SVal
  | [], _ => none
  | (k1, v) :: rest, k => if k1 = k then some v else svLookup rest k

/-- _simple_property_view of notion_sync/core.py: the normalized
comparison view, a dict assigning the nine tracked keys in source order.
Python dict equality on two views built by this function coincides with
equality of these association lists, since both are built by the same
assignment sequence. -/
def simple_property_view (properties : J) (id_property_name : String) : List (String × SVal) :=
  let simple : List (String × SVal) := []
  let id_prop := pyOr (properties.get id_property_name) (J.obj [])
  let simple := svInsert simple id_property_name (SVal.s (from_rich_text id_prop))
  let title := pyOr (properties.get "Task Name") (J.obj [])
  let simple := svInsert simple "Task Name" (SVal.s (from_title title))
  let status := pyOr (properties.get "Status") (J.obj [])
  let simple := svInsert simple "Status" (SVal.s (from_status status))
  let priority := pyOr (properties.get "Priority") (J.obj [])
  let simple := svInsert simple "Priority" (SVal.s (from_select priority))
  let owner := pyOr (properties.get "Owner") (J.obj [])
  let simple := svInsert simple "Owner" (SVal.s (from_select owner))
  let phase := pyOr (properties.get "Phase") (J.obj [])
  let simple := svInsert simple "Phase" (SVal.s (from_select phase))
  let epic := pyOr (properties.get "Epic") (J.obj [])
  let simple := svInsert simple "Epic" (SVal.s (from_select epic))
  let description := pyOr (properties.get "Description") (J.obj [])
  let simple := svInsert simple "Description" (SVal.s (from_rich_text description))
  let deps := pyOr (properties.get "Dependencies") (J.obj [])
  svInsert simple "Dependencies" (SVal.s (from_rich_text deps))

/-- needs_update of notion_sync/core.py: the views of the existing page
properties and of the desired payload differ. -/
def needs_update (existing_page : J) (new_properties : J)
    (id_property_name : String := DEFAULT_NOTION_ID_PROPERTY) : Bool :=
  let existing_props := pyOr (existing_page.get "properties") (J.obj [])
  let simple_existing := simple_property_view existing_props id_property_name
  let simple_new := simple_property_view new_properties id_property_name
  decide (simple_existing ≠ simple_new)

/-- The eight fixed property names assigned by the payload builder and
the view besides the identifier property name. -/
def fixedPropNames : List String :=
  ["Task Name", "Status", "Priority", "Owner", "Phase", "Epic", "Description", "Dependencies"]

/-- The keys the view reads: the identifier property name and the eight
fixed names. -/
def trackedKeys (id_property_name : String) : List String :=
  id_property_name :: fixedPropNames

/-- The view entry a given tracked key receives, as a function of the
properties value, assuming the identifier property name does not collide
with a fixed name. -/
def entryFor (id_property_name k : String) (p : J) : SVal :=
  if k = id_property_name then SVal.s (from_rich_text (pyOr (p.get id_property_name) (J.obj []))) else
  if k = "Task Name" then SVal.s (from_title (pyOr (p.get "Task Name") (J.obj []))) else
  if k = "Status" then SVal.s (from_status (pyOr (p.get "Status") (J.obj []))) else
  if k = "Priority" then SVal.s (from_select (pyOr (p.get "Priority") (J.obj []))) else
  if k = "Owner" then SVal.s (from_select (pyOr (p.get "Owner") (J.obj []))) else
  if k = "Phase" then SVal.s (from_select (pyOr (p.get "Phase") (J.obj []))) else
  if k = "Epic" then SVal.s (from_select (pyOr (p.get "Epic") (J.obj []))) else
  if k = "Description" then SVal.s (from_rich_text (pyOr (p.get "Description") (J.obj []))) else
  if k = "Dependencies" then SVal.s (from_rich_text (pyOr (p.get "Dependencies") (J.obj []))) else
  SVal.s ""

/-! ## Reconciler: the per-task loop of sync_roadmap_to_notion

The loop walks the flattened tasks once.  Lookups go to the index
fetched before the loop; writes go to the remote store, modelled as a
map from task id to page object, whose initial content is that same
index.  A write is applied verbatim: the written page carries the sent
properties payload.  The failure oracle tells, per task position,
whether the single write that task may issue raises APIResponseError;
in dry run mode the write helpers return before calling the API, so no
failure can occur and the counters are incremented as if the write had
been performed. -/

/-- The accumulated outcome counters. -/
structure SyncStats where
  created : Nat
  updated : Nat
  skipped : Nat
  failed : Nat
deriving DecidableEq, Repr

/-- The remote store and the fetched index: pages keyed by task id. -/
abbrev Store := List (String × J)

/-- existing_pages.get(task.id), with absence read back as a falsy None. -/
def pageFor (index : Store) (task_id : String) : J :=
  (jlookup index task_id).getD J.null

/-- The branch the loop takes for one task: the page is truthy and the
views differ (update), the page is truthy and the views agree (skip), or
the page is absent or falsy (create). -/
inductive Decision where
  | create
  | update
  | skip
deriving DecidableEq, Repr

/-- The decision for one task, a function of the fetched index only. -/
def taskDecision (index : Store) (id_property_name : String) (t : Task) : Decision :=
  let page := pageFor index t.id
  if page.truthy then
    if needs_update page (format_notion_properties t id_property_name) id_property_name
    then Decision.update else Decision.skip
  else Decision.create

/-- The page a successful create leaves in the remote store: a fresh
page object whose properties are the sent payload. -/
def createdPage (t : Task) (props : J) : J :=
  J.obj [("id", J.str t.id), ("properties", props)]

/-- The page a successful update leaves in the remote store: same page
id, properties replaced by the sent payload (the payload sets every
tracked property, so the comparison view of the result is the view of
the payload either way). -/
def updatedPage (page : J) (props : J) : J :=
  J.obj [("id", page.get "id"), ("properties", props)]

/-- The outcome recorded for one task. -/
inductive Outcome where
  | created
  | updated
  | skipped
  | failed
deriving DecidableEq, Repr

/-- stats counter increment for one outcome. -/
def bump (s : SyncStats) : Outcome → SyncStats
  | Outcome.created => { s with created := s.created + 1 }
  | Outcome.updated => { s with updated := s.updated + 1 }
  | Outcome.skipped => { s with skipped := s.skipped + 1 }
  | Outcome.failed => { s with failed := s.failed + 1 }

/-- Accumulate a list of outcomes into the counters. -/
def tally (s : SyncStats) : List Outcome → SyncStats
  | [] => s
  | o :: os => tally (bump s o) os

/-- The outcome of the task at absolute position i, a function of the
fetched index, the dry run flag and the failure oracle only. -/
def outcomeOf (index : Store) (id_property_name : String) (dry_run : Bool)
    (apiFails : Nat → Bool) (i : Nat) (t : Task) : Outcome :=
  match taskDecision index id_property_name t with
  | Decision.skip => Outcome.skipped
  | Decision.update =>
    if dry_run then Outcome.updated
    else if apiFails i then Outcome.failed else Outcome.updated
  | Decision.create =>
    if dry_run then Outcome.created
    else if apiFails i then Outcome.failed else Outcome.created

/-- The outcomes of a task list starting at absolute position i. -/
def outcomesFrom (index : Store) (id_property_name : String) (dry_run : Bool)
    (apiFails : Nat → Bool) : Nat → List Task → List Outcome
  | _, [] => []
  | i, t :: ts =>
    outcomeOf index id_property_name dry_run apiFails i t ::
      outcomesFrom index id_property_name dry_run apiFails (i + 1) ts

/-- The task loop of sync_roadmap_to_notion: walk the tasks, deciding
from the fetched index, counting, and applying successful non-dry writes
to the store. -/
def syncGo (index : Store) (id_property_name : String) (dry_run : Bool)
    (apiFails : Nat → Bool) : List Task → Nat → SyncStats → Store → SyncStats × Store
  | [], _, stats, store => (stats, store)
  | t :: ts, i, stats, store =>
    let props := format_notion_properties t id_property_name
    match taskDecision index id_property_name t with
    | Decision.skip =>
      syncGo index id_property_name dry_run apiFails ts (i + 1)
        { stats with skipped := stats.skipped + 1 } store
    | Decision.update =>
      if dry_run then
        syncGo index id_property_name dry_run apiFails ts (i + 1)
          { stats with updated := stats.updated + 1 } store
      else if apiFails i then
        syncGo index id_property_name dry_run apiFails ts (i + 1)
          { stats with failed := stats.failed + 1 } store
      else
        syncGo index id_property_name dry_run apiFails ts (i + 1)
          { stats with updated := stats.updated + 1 }
          (jInsert store t.id (updatedPage (pageFor index t.id) props))
    | Decision.create =>
      if dry_run then
        syncGo index id_property_name dry_run apiFails ts (i + 1)
          { stats with created := stats.created + 1 } store
      else if apiFails i then
        syncGo index id_property_name dry_run apiFails ts (i + 1)
          { stats with failed := stats.failed + 1 } store
      else
        syncGo index id_property_name dry_run apiFails ts (i + 1)
          { stats with created := stats.created + 1 }
          (jInsert store t.id (createdPage t props))

/-- sync_roadmap_to_notion of notion_sync/core.py, from the point where
the tasks are flattened and the existing pages fetched: the loop over
the tasks, returning the final counters and the resulting remote
store. -/
def sync_roadmap_to_notion (tasks : List Task) (index : Store)
    (id_property_name : String) (dry_run : Bool) (apiFails : Nat → Bool) :
    SyncStats × Store :=
  syncGo index id_property_name dry_run apiFails tasks 0
    { created := 0, updated := 0, skipped := 0, failed := 0 } index

/-! ## Auxiliary definitions used by the statements -/

/-- Occurrences of one outcome in a list of outcomes. -/
def countO (o : Outcome) : List Outcome → Nat
  | [] => 0
  | x :: xs => (if x = o then 1 else 0) + countO o xs

/-- A concrete task used by witnesses: the scenario task of the spec. -/
def sampleTask : Task :=
  { id := "T1", title := "Task 1", status := "In Progress", priority := "High",
    owner := "Alex", description := "First task", dependencies := ["T0"],
    phase_name := "Phase 1", epic_title := "Epic A" }

/-- Two tasks sharing one id but differing in title. -/
def dupTaskA : Task :=
  { id := "T", title := "A", status := "s", priority := "p", owner := "o",
    description := "", dependencies := [], phase_name := "", epic_title := "" }

/-- Second task with the same id as dupTaskA and another title. -/
def dupTaskB : Task :=
  { dupTaskA with title := "B" }

/-- A concrete roadmap document: one phase, one epic, three task entries
of which the second lacks an id. -/
def sampleDoc : J :=
  J.obj [("phases", J.arr [
    J.obj [("phaseName", J.str "P1"), ("epics", J.arr [
      J.obj [("epicTitle", J.str "E1"), ("tasks", J.arr [
        J.obj [("id", J.str "T1"), ("title", J.str "Task 1")],
        J.obj [("title", J.str "Missing ID")],
        J.obj [("id", J.str "T2"), ("title", J.str "Task 2"),
               ("status", J.str "Done"), ("dependencies", J.arr [J.str "T1"])]])]])]])]

/-- A page whose properties are the empty payload. -/
def emptyPage : J := J.obj [("properties", J.obj [])]

/-- A select value naming Phase 2. -/
def phaseSelectP2 : J := J.obj [("select", J.obj [("name", J.str "Phase 2")])]

/-! ## Basic lemmas about the embedding -/

theorem jlookup_jInsert_self (m : List (String × J)) (k : String) (v : J) :
    jlookup (jInsert m k v) k = some v := by
  induction m with
  | nil => simp [jInsert, jlookup]
  | cons e rest ih =>
    obtain ⟨k1, v1⟩ := e
    by_cases h : k1 = k
    · simp [jInsert, jlookup, h]
    · simp [jInsert, jlookup, h, ih]

theorem jlookup_jInsert_ne (m : List (String × J)) (k : String) (v : J) (k2 : String)
    (h : k2 ≠ k) : jlookup (jInsert m k v) k2 = jlookup m k2 := by
  induction m with
  | nil => simp [jInsert, jlookup, Ne.symm h]
  | cons e rest ih =>
    obtain ⟨k1, v1⟩ := e
    simp only [jInsert]
    by_cases h1 : k1 = k
    · subst h1
      simp [jlookup, Ne.symm h]
    · simp only [h1, if_false]
      by_cases h2 : k1 = k2 <;> simp [jlookup, h2, ih]

theorem jInsert_isEmpty (m : List (String × J)) (k : String) (v : J) :
    (jInsert m k v).isEmpty = false := by
  cases m with
  | nil => simp [jInsert]
  | cons e rest =>
    obtain ⟨k1, v1⟩ := e
    by_cases h : k1 = k <;> simp [jInsert, h]

theorem svLookup_svInsert_self (m : List (String × SVal)) (k : String) (v : SVal) :
    svLookup (svInsert m k v) k = some v := by
  induction m with
  | nil => simp [svInsert, svLookup]
  | cons e rest ih =>
    obtain ⟨k1, v1⟩ := e
    by_cases h : k1 = k
    · simp [svInsert, svLookup, h]
    · simp [svInsert, svLookup, h, ih]

theorem pyOr_pos (a b : J) (h : a.truthy = true) : pyOr a b = a := by
  simp [pyOr, h]

theorem pyOr_neg (a b : J) (h : a.truthy = false) : pyOr a b = b := by
  simp [pyOr, h]

theorem get_of_falsy (p : J) (h : p.truthy = false) (k : String) : p.get k = J.null := by
  cases p with
  | obj kvs =>
    simp [J.truthy] at h
    subst h
    simp [J.get, J.getD, jlookup]
  | _ => simp [J.get, J.getD]

theorem get_pyOr_default (raw : J) (k : String) :
    (pyOr raw (J.obj [])).get k = raw.get k := by
  cases htr : raw.truthy with
  | true => rw [pyOr_pos _ _ htr]
  | false =>
    rw [pyOr_neg _ _ htr, get_of_falsy raw htr k]
    simp [J.get, J.getD, jlookup]

theorem get_obj_jInsert_ne (kvs : List (String × J)) (k : String) (v : J) (k2 : String)
    (h : k2 ≠ k) : (J.obj (jInsert kvs k v)).get k2 = (J.obj kvs).get k2 := by
  simp [J.get, J.getD, jlookup_jInsert_ne kvs k v k2 h]

/-! ## Lemmas about the comparison view -/

theorem pyOr_obj_cons (k : String) (v : J) (kvs : List (String × J)) (b : J) :
    pyOr (J.obj ((k, v) :: kvs)) b = J.obj ((k, v) :: kvs) := by
  simp [pyOr, J.truthy, List.isEmpty]

theorem asStr_pyOr_empty (s : String) : (pyOr (J.str s) (J.str "")).asStr = s := by
  by_cases h : s = ""
  · subst h
    simp [pyOr, J.truthy, J.asStr]
  · have ht : (J.str s).truthy = true := by simp [J.truthy, h]
    rw [pyOr_pos _ _ ht]
    rfl

theorem strJoin_single (s : String) : strJoin [s] = s := by
  simp [strJoin]

theorem spanText_span (c : J) :
    spanText (J.obj [("type", J.str "text"), ("text", J.obj [("content", c)])])
      = (pyOr c (J.str "")).asStr := by
  simp [spanText, J.get, J.getD, jlookup, pyOr, J.truthy]

theorem from_rich_text_str (s : String) :
    from_rich_text (richTextProp (J.str s)) = s := by
  unfold from_rich_text
  have h1 : pyOr ((richTextProp (J.str s)).get "rich_text") (J.arr [])
      = J.arr [J.obj [("type", J.str "text"), ("text", J.obj [("content", J.str s)])]] := by
    simp [richTextProp, J.get, J.getD, jlookup, pyOr, J.truthy]
  rw [h1]
  simp [strJoin, spanText_span, asStr_pyOr_empty]

theorem from_rich_text_pyOr_str (d : String) :
    from_rich_text (richTextProp (pyOr (J.str d) (J.str ""))) = d := by
  by_cases h : d = ""
  · subst h
    simp [pyOr, J.truthy, from_rich_text_str]
  · have ht : (J.str d).truthy = true := by simp [J.truthy, h]
    rw [pyOr_pos _ _ ht, from_rich_text_str]

theorem from_title_str (s : String) : from_title (titleProp (J.str s)) = s := by
  simp [from_title, titleProp, J.get, J.getD, jlookup, pyOr, J.truthy, J.asStr]

theorem from_select_str (s : String) : from_select (selectProp s) = s := by
  simp [from_select, selectProp, J.get, J.getD, jlookup, pyOr, J.truthy, J.asStr]

theorem from_status_str (s : String) : from_status (statusProp s) = s := by
  simp [from_status, statusProp, J.get, J.getD, jlookup, pyOr, J.truthy, J.asStr]

theorem view_congr (p q : J) (idName : String)
    (h : ∀ k, k ∈ trackedKeys idName → p.get k = q.get k) :
    simple_property_view p idName = simple_property_view q idName := by
  have h0 := h idName (by simp [trackedKeys])
  have h1 := h "Task Name" (by simp [trackedKeys, fixedPropNames])
  have h2 := h "Status" (by simp [trackedKeys, fixedPropNames])
  have h3 := h "Priority" (by simp [trackedKeys, fixedPropNames])
  have h4 := h "Owner" (by simp [trackedKeys, fixedPropNames])
  have h5 := h "Phase" (by simp [trackedKeys, fixedPropNames])
  have h6 := h "Epic" (by simp [trackedKeys, fixedPropNames])
  have h7 := h "Description" (by simp [trackedKeys, fixedPropNames])
  have h8 := h "Dependencies" (by simp [trackedKeys, fixedPropNames])
  simp only [simple_property_view, h0, h1, h2, h3, h4, h5, h6, h7, h8]

theorem view_of_falsy (p : J) (idName : String) (h : p.truthy = false) :
    simple_property_view p idName = simple_property_view (J.obj []) idName := by
  refine view_congr p (J.obj []) idName (fun k _ => ?_)
  rw [get_of_falsy p h k]
  simp [J.get, J.getD, jlookup]

theorem needs_update_false_iff (page : J) (newp : J) (idName : String) :
    needs_update page newp idName = false ↔
      simple_property_view (pyOr (page.get "properties") (J.obj [])) idName
        = simple_property_view newp idName := by
  simp [needs_update]

theorem needs_update_wrap_self (p : J) (idName : String) :
    needs_update (J.obj [("properties", p)]) p idName = false := by
  rw [needs_update_false_iff]
  have hget : (J.obj [("properties", p)]).get "properties" = p := by
    simp [J.get, J.getD, jlookup]
  rw [hget]
  cases htr : p.truthy with
  | true => rw [pyOr_pos _ _ htr]
  | false => rw [pyOr_neg _ _ htr, view_of_falsy p idName htr]

theorem needs_update_applied (props x : J) (idName : String) (h : props.truthy = true) :
    needs_update (J.obj [("id", x), ("properties", props)]) props idName = false := by
  rw [needs_update_false_iff]
  have hget : (J.obj [("id", x), ("properties", props)]).get "properties" = props := by
    simp [J.get, J.getD, jlookup]
  rw [hget, pyOr_pos _ _ h]

theorem format_truthy (t : Task) (idName : String) :
    (format_notion_properties t idName).truthy = true := by
  simp [format_notion_properties, dictOf, List.foldl, J.truthy, jInsert_isEmpty]

theorem view_explicit (p : J) (idName : String) (hid : idName ∉ fixedPropNames) :
    simple_property_view p idName =
      [(idName, SVal.s (from_rich_text (pyOr (p.get idName) (J.obj [])))),
       ("Task Name", SVal.s (from_title (pyOr (p.get "Task Name") (J.obj [])))),
       ("Status", SVal.s (from_status (pyOr (p.get "Status") (J.obj [])))),
       ("Priority", SVal.s (from_select (pyOr (p.get "Priority") (J.obj [])))),
       ("Owner", SVal.s (from_select (pyOr (p.get "Owner") (J.obj [])))),
       ("Phase", SVal.s (from_select (pyOr (p.get "Phase") (J.obj [])))),
       ("Epic", SVal.s (from_select (pyOr (p.get "Epic") (J.obj [])))),
       ("Description", SVal.s (from_rich_text (pyOr (p.get "Description") (J.obj [])))),
       ("Dependencies", SVal.s (from_rich_text (pyOr (p.get "Dependencies") (J.obj []))))] := by
  simp only [fixedPropNames, List.mem_cons, List.mem_singleton, not_or] at hid
  obtain ⟨h1, h2, h3, h4, h5, h6, h7, h8⟩ := hid
  simp [simple_property_view, svInsert, h1, h2, h3, h4, h5, h6, h7, h8]

theorem svLookup_view (p : J) (idName k : String) (hid : idName ∉ fixedPropNames)
    (hk : k ∈ trackedKeys idName) :
    svLookup (simple_property_view p idName) k = some (entryFor idName k p) := by
  rw [view_explicit p idName hid]
  simp only [fixedPropNames, List.mem_cons, List.mem_nil_iff, or_false, not_or] at hid
  obtain ⟨h1, h2, h3, h4, h5, h6, h7, h8⟩ := hid
  simp only [trackedKeys, fixedPropNames, List.mem_cons, List.mem_nil_iff, or_false] at hk
  rcases hk with rfl | rfl | rfl | rfl | rfl | rfl | rfl | rfl | rfl
  · simp [svLookup, entryFor]
  · simp [svLookup, entryFor, h1, Ne.symm h1]
  · simp [svLookup, entryFor, h2, Ne.symm h2]
  · simp [svLookup, entryFor, h3, Ne.symm h3]
  · simp [svLookup, entryFor, h4, Ne.symm h4]
  · simp [svLookup, entryFor, h5, Ne.symm h5]
  · simp [svLookup, entryFor, h6, Ne.symm h6]
  · simp [svLookup, entryFor, h7, Ne.symm h7]
  · simp [svLookup, entryFor, h8, Ne.symm h8]

theorem svLookup_view_deps (p : J) (idName : String) :
    svLookup (simple_property_view p idName) "Dependencies"
      = some (SVal.s (from_rich_text (pyOr (p.get "Dependencies") (J.obj [])))) := by
  simp only [simple_property_view]
  exact svLookup_svInsert_self _ _ _

theorem format_get_deps (t : Task) (idName : String) :
    (format_notion_properties t idName).get "Dependencies"
      = richTextProp (J.str (String.intercalate ", " t.dependencies)) := by
  simp [format_notion_properties, dictOf, List.foldl, J.get, J.getD, jlookup_jInsert_self]

theorem truthy_richTextProp (c : J) : (richTextProp c).truthy = true := rfl

theorem truthy_titleProp (c : J) : (titleProp c).truthy = true := rfl

theorem truthy_selectProp (s : String) : (selectProp s).truthy = true := rfl

theorem truthy_statusProp (s : String) : (statusProp s).truthy = true := rfl

theorem format_explicit (t : Task) (idName : String) (hid : idName ∉ fixedPropNames) :
    format_notion_properties t idName = J.obj
      [(idName, richTextProp (J.str t.id)),
       ("Task Name", titleProp (J.str t.title)),
       ("Status", statusProp t.status),
       ("Priority", selectProp t.priority),
       ("Owner", selectProp t.owner),
       ("Phase", selectProp t.phase_name),
       ("Epic", selectProp t.epic_title),
       ("Description", richTextProp (pyOr (J.str t.description) (J.str ""))),
       ("Dependencies", richTextProp (J.str (String.intercalate ", " t.dependencies)))] := by
  simp only [fixedPropNames, List.mem_cons, List.mem_nil_iff, or_false, not_or] at hid
  obtain ⟨h1, h2, h3, h4, h5, h6, h7, h8⟩ := hid
  simp [format_notion_properties, dictOf, List.foldl, jInsert, h1, h2, h3, h4, h5, h6, h7, h8]

theorem from_rich_text_format_desc (d : String) :
    from_rich_text (pyOr (richTextProp (pyOr (J.str d) (J.str ""))) (J.obj []))
      = d := by
  rw [pyOr_pos _ _ (truthy_richTextProp _)]
  exact from_rich_text_pyOr_str d

theorem view_of_format (t : Task) (idName : String) (hid : idName ∉ fixedPropNames) :
    simple_property_view (format_notion_properties t idName) idName =
      [(idName, SVal.s t.id),
       ("Task Name", SVal.s t.title),
       ("Status", SVal.s t.status),
       ("Priority", SVal.s t.priority),
       ("Owner", SVal.s t.owner),
       ("Phase", SVal.s t.phase_name),
       ("Epic", SVal.s t.epic_title),
       ("Description", SVal.s t.description),
       ("Dependencies", SVal.s (String.intercalate ", " t.dependencies))] := by
  rw [view_explicit _ _ hid, format_explicit t idName hid]
  simp only [fixedPropNames, List.mem_cons, List.mem_nil_iff, or_false, not_or] at hid
  obtain ⟨h1, h2, h3, h4, h5, h6, h7, h8⟩ := hid
  simp [J.get, J.getD, jlookup, h1, h2, h3, h4, h5, h6, h7, h8,
    pyOr_pos, truthy_richTextProp, truthy_titleProp, truthy_selectProp, truthy_statusProp,
    from_rich_text_str, from_title_str, from_select_str, from_status_str,
    from_rich_text_pyOr_str]

theorem needs_update_deps_join (t : Task) (d2 : List String) (idName : String) :
    needs_update (J.obj [("properties", format_notion_properties t idName)])
        (format_notion_properties { t with dependencies := d2 } idName) idName
      = decide (String.intercalate ", " t.dependencies ≠ String.intercalate ", " d2) := by
  have hget : (J.obj [("properties", format_notion_properties t idName)]).get "properties"
      = format_notion_properties t idName := by
    simp [J.get, J.getD, jlookup]
  by_cases hj : String.intercalate ", " t.dependencies = String.intercalate ", " d2
  · have hfmt : format_notion_properties { t with dependencies := d2 } idName
        = format_notion_properties t idName := by
      simp [format_notion_properties, hj]
    rw [hfmt, needs_update_wrap_self]
    simp [hj]
  · have hne : simple_property_view (format_notion_properties t idName) idName
        ≠ simple_property_view
            (format_notion_properties { t with dependencies := d2 } idName) idName := by
      intro heq
      have hl := congrArg (fun vw => svLookup vw "Dependencies") heq
      simp only [svLookup_view_deps] at hl
      rw [format_get_deps, format_get_deps] at hl
      rw [pyOr_pos _ _ (truthy_richTextProp _), pyOr_pos _ _ (truthy_richTextProp _)] at hl
      rw [from_rich_text_str, from_rich_text_str] at hl
      simp at hl
      exact hj hl
    simp only [needs_update, hget]
    rw [pyOr_pos _ _ (format_truthy t idName)]
    simp [hne, hj]

theorem needs_update_untracked_insensitive (page : J) (kvs : List (String × J))
    (idName k : String) (v : J) (hk : k ∉ trackedKeys idName) :
    needs_update page (J.obj (jInsert kvs k v)) idName
      = needs_update page (J.obj kvs) idName := by
  have hview : simple_property_view (J.obj (jInsert kvs k v)) idName
      = simple_property_view (J.obj kvs) idName := by
    refine view_congr _ _ _ (fun k2 hk2 => ?_)
    have hne : k2 ≠ k := fun e => hk (e ▸ hk2)
    exact get_obj_jInsert_ne kvs k v k2 hne
  simp only [needs_update, hview]

theorem needs_update_tracked_sensitive (page : J) (kvs : List (String × J))
    (idName k : String) (v : J)
    (hid : idName ∉ fixedPropNames) (hk : k ∈ trackedKeys idName)
    (hbase : needs_update page (J.obj kvs) idName = false)
    (hch : entryFor idName k (J.obj (jInsert kvs k v)) ≠ entryFor idName k (J.obj kvs)) :
    needs_update page (J.obj (jInsert kvs k v)) idName = true := by
  have hbase2 := (needs_update_false_iff _ _ _).mp hbase
  cases hnew : needs_update page (J.obj (jInsert kvs k v)) idName with
  | true => rfl
  | false =>
    exfalso
    have hnew2 := (needs_update_false_iff _ _ _).mp hnew
    have heq : simple_property_view (J.obj kvs) idName
        = simple_property_view (J.obj (jInsert kvs k v)) idName :=
      hbase2.symm.trans hnew2
    have hl := congrArg (fun vw => svLookup vw k) heq
    simp only [svLookup_view _ _ _ hid hk] at hl
    apply hch
    injection hl with hl2
    exact hl2.symm

/-! ## Lemmas about flatten_roadmap -/

theorem flattenTasks_ok_of_entryOk (pn et : String) :
    ∀ (raws : List J), (∀ r ∈ raws, entryOk r = true) →
    flattenTasks pn et raws = Except.ok (raws.filterMap (taskOfRawDict pn et)) := by
  intro raws
  induction raws with
  | nil => intro _; simp [flattenTasks]
  | cons r rs ih =>
    intro h
    have hr : entryOk r = true := h r (by simp)
    have hcrash : (r.truthy && !r.isDict) = false := by
      unfold entryOk at hr
      cases htr : r.truthy <;> cases hd : r.isDict <;>
        simp [htr, hd] at hr ⊢
    unfold flattenTasks taskOfRaw
    simp only [hcrash, Bool.false_eq_true, if_false]
    rw [ih (fun x hx => h x (by simp [hx]))]
    cases hv : taskOfRawDict pn et r <;> simp [List.filterMap_cons, hv]

theorem flattenEpic_cases (pn : String) (e : J) (he : epicOk e = true) :
    (badEpic e = true ∧ flattenEpic pn e
        = Except.error (FlattenErr.load ⟨"Expected tasks to be a list in each epic"⟩))
    ∨ (badEpic e = false ∧ ∃ ts, flattenEpic pn e = Except.ok ts) := by
  simp only [epicOk, Bool.and_eq_true] at he
  obtain ⟨hd, hall⟩ := he
  unfold flattenEpic badEpic
  simp only [hd, Bool.not_true, Bool.false_eq_true, if_false]
  cases hc : coerceList (e.get "tasks") with
  | none => left; simp [hc]
  | some raws =>
    right
    rw [hc] at hall
    simp only [Option.getD_some, List.all_eq_true] at hall
    refine ⟨by simp [hc], _, flattenTasks_ok_of_entryOk pn _ raws hall⟩

theorem flattenEpics_classify (pn : String) :
    ∀ (es : List J), (∀ e ∈ es, epicOk e = true) →
    (es.any badEpic = true ∧ ∃ e2, flattenEpics pn es = Except.error (FlattenErr.load e2))
    ∨ (es.any badEpic = false ∧ ∃ ts, flattenEpics pn es = Except.ok ts) := by
  intro es
  induction es with
  | nil => intro _; right; exact ⟨rfl, [], rfl⟩
  | cons e es ih =>
    intro h
    rcases flattenEpic_cases pn e (h e (by simp)) with ⟨hbad, herr⟩ | ⟨hgood, ts1, hok⟩
    · left
      refine ⟨by simp [hbad], ⟨"Expected tasks to be a list in each epic"⟩, ?_⟩
      simp only [flattenEpics, herr]
    · rcases ih (fun x hx => h x (by simp [hx])) with ⟨hbad2, e2, herr2⟩ | ⟨hgood2, ts2, hok2⟩
      · left
        refine ⟨by simp [hbad2], e2, ?_⟩
        simp only [flattenEpics, hok, herr2]
      · right
        refine ⟨by simp [hgood, hgood2], ts1 ++ ts2, ?_⟩
        simp only [flattenEpics, hok, hok2]

theorem flattenPhase_classify (p : J) (hp : phaseOk p = true) :
    (badPhase p = true ∧ ∃ e2, flattenPhase p = Except.error (FlattenErr.load e2))
    ∨ (badPhase p = false ∧ ∃ ts, flattenPhase p = Except.ok ts) := by
  simp only [phaseOk, Bool.and_eq_true] at hp
  obtain ⟨hd, hall⟩ := hp
  unfold flattenPhase badPhase
  simp only [hd, Bool.not_true, Bool.false_eq_true, if_false]
  cases hc : coerceList (p.get "epics") with
  | none =>
    left
    refine ⟨by simp [hc], ⟨"Expected epics to be a list in each phase"⟩, by simp [hc]⟩
  | some es =>
    rw [hc] at hall
    simp only [Option.getD_some, List.all_eq_true] at hall
    rcases flattenEpics_classify ((p.getD "phaseName" (J.str "")).pyStr) es hall with
      ⟨hbad, e2, herr⟩ | ⟨hgood, ts, hok⟩
    · left
      refine ⟨by simp [hc, hbad], e2, ?_⟩
      simp only [hc, herr]
    · right
      refine ⟨by simp [hc, hgood], ts, ?_⟩
      simp only [hc, hok]

theorem flattenPhases_classify :
    ∀ (ps : List J), (∀ p ∈ ps, phaseOk p = true) →
    (ps.any badPhase = true ∧ ∃ e2, flattenPhases ps = Except.error (FlattenErr.load e2))
    ∨ (ps.any badPhase = false ∧ ∃ ts, flattenPhases ps = Except.ok ts) := by
  intro ps
  induction ps with
  | nil => intro _; right; exact ⟨rfl, [], rfl⟩
  | cons p ps ih =>
    intro h
    rcases flattenPhase_classify p (h p (by simp)) with ⟨hbad, e2, herr⟩ | ⟨hgood, ts1, hok⟩
    · left
      refine ⟨by simp [hbad], e2, ?_⟩
      simp only [flattenPhases, herr]
    · rcases ih (fun x hx => h x (by simp [hx])) with ⟨hbad2, e2, herr2⟩ | ⟨hgood2, ts2, hok2⟩
      · left
        refine ⟨by simp [hbad2], e2, ?_⟩
        simp only [flattenPhases, hok, herr2]
      · right
        refine ⟨by simp [hgood, hgood2], ts1 ++ ts2, ?_⟩
        simp only [flattenPhases, hok, hok2]

theorem flatten_isError_of_docOk (d : J) (hd : docOk d = true) :
    isLoadError (flatten_roadmap d) = badDoc d := by
  simp only [docOk, Bool.and_eq_true] at hd
  obtain ⟨hdict, hall⟩ := hd
  unfold flatten_roadmap badDoc
  simp only [hdict, Bool.not_true, Bool.false_eq_true, if_false]
  cases hc : coerceList (d.get "phases") with
  | none => simp [hc, isLoadError]
  | some ps =>
    rw [hc] at hall
    simp only [Option.getD_some, List.all_eq_true] at hall
    rcases flattenPhases_classify ps hall with ⟨hbad, e2, herr⟩ | ⟨hgood, ts, hok⟩
    · simp [hc, herr, isLoadError, hbad]
    · simp [hc, hok, isLoadError, hgood]

/-- The document of the rejected-iff example: a non-dict phase element
precedes a phase whose epics value is a truthy non-list.  The program
fails with AttributeError at the first phase, before the epics check is
reached, so there is no load error although a truthy non-sequence is
present: flatten failing with a load error is equivalent to badDoc only
on documents with no AttributeError path, which is why the claim below
carries the docOk guard. -/
theorem flatten_attr_preempts_load_error :
    flatten_roadmap (J.obj [("phases", J.arr [J.num 0, J.obj [("epics", J.num 5)]])])
      = Except.error (FlattenErr.attr "get called on a non-dict phase entry")
    ∧ isLoadError
        (flatten_roadmap (J.obj [("phases", J.arr [J.num 0, J.obj [("epics", J.num 5)]])]))
      = false
    ∧ badDoc (J.obj [("phases", J.arr [J.num 0, J.obj [("epics", J.num 5)]])]) = true :=
  ⟨rfl, rfl, rfl⟩

theorem taskOfRawDict_proj (pn et : String) (raw : J) :
    (taskOfRawDict pn et raw).map (fun t => (t.id, t.title)) = entryValidIdTitle raw := by
  unfold taskOfRawDict entryValidIdTitle
  simp only [get_pyOr_default]
  cases hid : raw.get "id" <;> cases hti : raw.get "title" <;> simp
  case str.str i t =>
    by_cases hi : i = "" <;> by_cases ht : t = "" <;> simp [hi, ht]

theorem taskOfRaw_ok_proj (pn et : String) (raw : J) (t1 : Option Task)
    (h : taskOfRaw pn et raw = Except.ok t1) :
    t1.map (fun t => (t.id, t.title)) = entryValidIdTitle raw := by
  unfold taskOfRaw at h
  by_cases hcr : (raw.truthy && !raw.isDict) = true
  · rw [if_pos hcr] at h
    cases h
  · rw [if_neg hcr] at h
    have ht1 : t1 = taskOfRawDict pn et raw := by
      cases h
      rfl
    subst ht1
    exact taskOfRawDict_proj pn et raw

theorem flattenTasks_ok_proj (pn et : String) :
    ∀ (raws : List J) (ts : List Task), flattenTasks pn et raws = Except.ok ts →
    ts.map (fun t => (t.id, t.title)) = raws.filterMap entryValidIdTitle := by
  intro raws
  induction raws with
  | nil =>
    intro ts h
    have hts : ts = [] := by
      unfold flattenTasks at h
      cases h
      rfl
    subst hts
    simp
  | cons r rs ih =>
    intro ts h
    unfold flattenTasks at h
    cases h1 : taskOfRaw pn et r with
    | error err => rw [h1] at h; cases h
    | ok t1 =>
      rw [h1] at h
      cases h2 : flattenTasks pn et rs with
      | error err2 => rw [h2] at h; cases h
      | ok rest =>
        rw [h2] at h
        have hproj := taskOfRaw_ok_proj pn et r t1 h1
        cases t1 with
        | none =>
          have hts : ts = rest := by cases h; rfl
          subst hts
          simp only [Option.map] at hproj
          rw [List.filterMap_cons, ← hproj]
          exact ih _ h2
        | some t =>
          have hts : ts = t :: rest := by cases h; rfl
          subst hts
          simp only [Option.map] at hproj
          rw [List.filterMap_cons, ← hproj]
          simp only [List.map_cons]
          rw [ih _ h2]

theorem flattenEpic_ok_proj (pn : String) (e : J) (ts : List Task)
    (h : flattenEpic pn e = Except.ok ts) :
    ts.map (fun t => (t.id, t.title)) = specEntriesOfEpic e := by
  unfold flattenEpic at h
  by_cases hd : (!e.isDict) = true
  · rw [if_pos hd] at h
    cases h
  · rw [if_neg hd] at h
    cases hc : coerceList (e.get "tasks") with
    | none => rw [hc] at h; cases h
    | some raws =>
      rw [hc] at h
      rw [flattenTasks_ok_proj pn _ raws ts h]
      unfold specEntriesOfEpic listOrEmpty
      rw [hc]
      rfl

theorem flattenEpics_ok_proj (pn : String) (es : List J) (ts : List Task)
    (h : flattenEpics pn es = Except.ok ts) :
    ts.map (fun t => (t.id, t.title)) = specEntriesOfEpics es := by
  induction es generalizing ts with
  | nil =>
    have hts : ts = [] := by
      unfold flattenEpics at h
      cases h
      rfl
    subst hts
    simp [specEntriesOfEpics]
  | cons e es ih =>
    unfold flattenEpics at h
    cases h1 : flattenEpic pn e with
    | error err => rw [h1] at h; cases h
    | ok t1 =>
      rw [h1] at h
      cases h2 : flattenEpics pn es with
      | error err2 => rw [h2] at h; cases h
      | ok rest =>
        rw [h2] at h
        have hts : ts = t1 ++ rest := by
          cases h
          rfl
        subst hts
        rw [List.map_append]
        unfold specEntriesOfEpics
        rw [flattenEpic_ok_proj pn e t1 h1, ih rest h2]

theorem flattenPhase_ok_proj (p : J) (ts : List Task)
    (h : flattenPhase p = Except.ok ts) :
    ts.map (fun t => (t.id, t.title)) = specEntriesOfEpics (listOrEmpty (p.get "epics")) := by
  unfold flattenPhase at h
  by_cases hd : (!p.isDict) = true
  · rw [if_pos hd] at h
    cases h
  · rw [if_neg hd] at h
    cases hc : coerceList (p.get "epics") with
    | none => rw [hc] at h; cases h
    | some es =>
      rw [hc] at h
      rw [flattenEpics_ok_proj _ es ts h]
      unfold listOrEmpty
      rw [hc]
      rfl

theorem flattenPhases_ok_proj (ps : List J) (ts : List Task)
    (h : flattenPhases ps = Except.ok ts) :
    ts.map (fun t => (t.id, t.title)) = specEntriesOfPhases ps := by
  induction ps generalizing ts with
  | nil =>
    have hts : ts = [] := by
      unfold flattenPhases at h
      cases h
      rfl
    subst hts
    simp [specEntriesOfPhases]
  | cons p ps ih =>
    unfold flattenPhases at h
    cases h1 : flattenPhase p with
    | error err => rw [h1] at h; cases h
    | ok t1 =>
      rw [h1] at h
      cases h2 : flattenPhases ps with
      | error err2 => rw [h2] at h; cases h
      | ok rest =>
        rw [h2] at h
        have hts : ts = t1 ++ rest := by
          cases h
          rfl
        subst hts
        rw [List.map_append]
        unfold specEntriesOfPhases
        rw [flattenPhase_ok_proj p t1 h1, ih rest h2]

/-! ## Lemmas about the reconcile loop -/

theorem syncGo_fst (index : Store) (idN : String) (dry : Bool) (f : Nat → Bool) :
    ∀ (ts : List Task) (i : Nat) (stats : SyncStats) (store : Store),
    (syncGo index idN dry f ts i stats store).1
      = tally stats (outcomesFrom index idN dry f i ts) := by
  intro ts
  induction ts with
  | nil => intro i stats store; simp [syncGo, outcomesFrom, tally]
  | cons t ts ih =>
    intro i stats store
    cases hd : taskDecision index idN t with
    | skip => simp [syncGo, outcomesFrom, outcomeOf, hd, tally, bump, ih]
    | update =>
      cases dry with
      | true => simp [syncGo, outcomesFrom, outcomeOf, hd, tally, bump, ih]
      | false =>
        cases hf : f i with
        | true => simp [syncGo, outcomesFrom, outcomeOf, hd, hf, tally, bump, ih]
        | false => simp [syncGo, outcomesFrom, outcomeOf, hd, hf, tally, bump, ih]
    | create =>
      cases dry with
      | true => simp [syncGo, outcomesFrom, outcomeOf, hd, tally, bump, ih]
      | false =>
        cases hf : f i with
        | true => simp [syncGo, outcomesFrom, outcomeOf, hd, hf, tally, bump, ih]
        | false => simp [syncGo, outcomesFrom, outcomeOf, hd, hf, tally, bump, ih]

theorem tally_counts (os : List Outcome) : ∀ s : SyncStats,
    tally s os = { created := s.created + countO Outcome.created os,
                   updated := s.updated + countO Outcome.updated os,
                   skipped := s.skipped + countO Outcome.skipped os,
                   failed := s.failed + countO Outcome.failed os } := by
  induction os with
  | nil => intro s; simp [tally, countO]
  | cons o os ih =>
    intro s
    rw [tally, ih]
    cases o <;> simp [bump, countO, SyncStats.mk.injEq] <;> omega

theorem countO_total (os : List Outcome) :
    countO Outcome.created os + countO Outcome.updated os
      + countO Outcome.skipped os + countO Outcome.failed os = os.length := by
  induction os with
  | nil => simp [countO]
  | cons o os ih => cases o <;> simp [countO] <;> omega

theorem outcomesFrom_length (index : Store) (idN : String) (dry : Bool) (f : Nat → Bool) :
    ∀ (i : Nat) (ts : List Task), (outcomesFrom index idN dry f i ts).length = ts.length := by
  intro i ts
  induction ts generalizing i with
  | nil => simp [outcomesFrom]
  | cons t ts ih => simp [outcomesFrom, ih]

theorem outcomesFrom_congr (index : Store) (idN : String) (dry : Bool) (f g : Nat → Bool) :
    ∀ (ts : List Task) (i : Nat), (∀ j, i ≤ j → j < i + ts.length → f j = g j) →
    outcomesFrom index idN dry f i ts = outcomesFrom index idN dry g i ts := by
  intro ts
  induction ts with
  | nil => intro i h; simp [outcomesFrom]
  | cons t ts ih =>
    intro i h
    have hi : f i = g i := h i (Nat.le_refl i) (by simp only [List.length_cons]; omega)
    unfold outcomesFrom
    congr 1
    · unfold outcomeOf
      rw [hi]
    · exact ih (i + 1) (fun j hj1 hj2 => h j (by omega) (by simp only [List.length_cons]; omega))

theorem outcomeOf_false_of (index : Store) (idN : String) (f : Nat → Bool) (i : Nat)
    (t : Task) (h : f i = false) :
    outcomeOf index idN false f i t = outcomeOf index idN false (fun _ => false) i t := by
  unfold outcomeOf
  cases taskDecision index idN t <;> simp [h]

theorem countO_no_failed (index : Store) (idN : String) :
    ∀ (i : Nat) (ts : List Task),
    countO Outcome.failed (outcomesFrom index idN false (fun _ => false) i ts) = 0 := by
  intro i ts
  induction ts generalizing i with
  | nil => simp [outcomesFrom, countO]
  | cons t ts ih =>
    unfold outcomesFrom
    cases hd : taskDecision index idN t <;> simp [outcomeOf, hd, countO, ih]

theorem outcomesFrom_fail_at (index : Store) (idN : String) :
    ∀ (ts : List Task) (i0 k : Nat) (hk : k < ts.length),
    taskDecision index idN (ts.get ⟨k, hk⟩) ≠ Decision.skip →
    outcomesFrom index idN false (fun j => decide (j = i0 + k)) i0 ts
      = (outcomesFrom index idN false (fun _ => false) i0 ts).set k Outcome.failed := by
  intro ts
  induction ts with
  | nil => intro i0 k hk; exact absurd hk (by simp)
  | cons t ts ih =>
    intro i0 k hk hdec
    cases k with
    | zero =>
      unfold outcomesFrom
      simp only [List.set]
      congr 1
      · unfold outcomeOf
        have htrue : (decide (i0 = i0 + 0)) = true := by simp
        cases hd : taskDecision index idN t with
        | skip => exact absurd hd (by simpa using hdec)
        | update => simp [htrue]
        | create => simp [htrue]
      · refine outcomesFrom_congr index idN false _ _ ts (i0 + 1) (fun j hj1 hj2 => ?_)
        have hne : ¬(j = i0) := by omega
        simp [hne]
    | succ k2 =>
      unfold outcomesFrom
      simp only [List.set]
      congr 1
      · refine outcomeOf_false_of index idN _ i0 t ?_
        have : ¬(i0 = i0 + (k2 + 1)) := by omega
        simp [this]
      · have harith : i0 + (k2 + 1) = (i0 + 1) + k2 := by omega
        rw [harith]
        exact ih (i0 + 1) k2 (by simpa using hk) (by simpa using hdec)

theorem outcomesFrom_getElem (index : Store) (idN : String) (dry : Bool) (f : Nat → Bool) :
    ∀ (ts : List Task) (i0 k : Nat) (hk : k < ts.length),
    (outcomesFrom index idN dry f i0 ts)[k]?
      = some (outcomeOf index idN dry f (i0 + k) (ts.get ⟨k, hk⟩)) := by
  intro ts
  induction ts with
  | nil => intro i0 k hk; exact absurd hk (by simp)
  | cons t ts ih =>
    intro i0 k hk
    cases k with
    | zero => simp [outcomesFrom]
    | succ k2 =>
      have harith : i0 + (k2 + 1) = (i0 + 1) + k2 := by omega
      rw [harith]
      simp only [outcomesFrom, List.getElem?_cons_succ, List.get]
      exact ih (i0 + 1) k2 (by simpa using hk)

theorem countO_set (o x : Outcome) : ∀ (l : List Outcome) (k : Nat) (g : Outcome),
    l[k]? = some g →
    countO o (l.set k x) + (if g = o then 1 else 0)
      = countO o l + (if x = o then 1 else 0) := by
  intro l
  induction l with
  | nil => intro k g hg; simp at hg
  | cons a l ih =>
    intro k g hg
    cases k with
    | zero =>
      simp only [List.getElem?_cons_zero, Option.some.injEq] at hg
      subst hg
      simp only [List.set, countO]
      omega
    | succ k2 =>
      simp only [List.getElem?_cons_succ] at hg
      have := ih k2 g hg
      simp only [List.set, countO]
      omega

theorem taskDecision_skip_iff (index : Store) (idN : String) (t : Task) :
    taskDecision index idN t = Decision.skip ↔
      (pageFor index t.id).truthy = true ∧
        needs_update (pageFor index t.id) (format_notion_properties t idN) idN = false := by
  unfold taskDecision
  cases htr : (pageFor index t.id).truthy with
  | false => simp [htr]
  | true =>
    cases hnu : needs_update (pageFor index t.id) (format_notion_properties t idN) idN <;>
      simp [htr, hnu]

theorem syncGo_frame (index : Store) (idN : String) (dry : Bool) (f : Nat → Bool) :
    ∀ (ts : List Task) (i : Nat) (stats : SyncStats) (store : Store) (k : String),
    k ∉ ts.map Task.id →
    jlookup (syncGo index idN dry f ts i stats store).2 k = jlookup store k := by
  intro ts
  induction ts with
  | nil => intro i stats store k _; simp [syncGo]
  | cons t ts ih =>
    intro i stats store k hk
    simp only [List.map_cons, List.mem_cons, not_or] at hk
    obtain ⟨hk1, hk2⟩ := hk
    have hk2m : k ∉ ts.map Task.id := hk2
    cases hd : taskDecision index idN t with
    | skip => simp only [syncGo, hd]; exact ih _ _ _ _ hk2m
    | update =>
      cases dry with
      | true => simp only [syncGo, hd, if_true]; exact ih _ _ _ _ hk2m
      | false =>
        cases hf : f i with
        | true =>
          simp only [syncGo, hd, hf, Bool.false_eq_true, if_false, if_true]
          exact ih _ _ _ _ hk2m
        | false =>
          simp only [syncGo, hd, hf, Bool.false_eq_true, if_false]
          rw [ih _ _ _ _ hk2m]
          exact jlookup_jInsert_ne store t.id _ k hk1
    | create =>
      cases dry with
      | true => simp only [syncGo, hd, if_true]; exact ih _ _ _ _ hk2m
      | false =>
        cases hf : f i with
        | true =>
          simp only [syncGo, hd, hf, Bool.false_eq_true, if_false, if_true]
          exact ih _ _ _ _ hk2m
        | false =>
          simp only [syncGo, hd, hf, Bool.false_eq_true, if_false]
          rw [ih _ _ _ _ hk2m]
          exact jlookup_jInsert_ne store t.id _ k hk1

theorem syncGo_at (index : Store) (idN : String) :
    ∀ (ts : List Task) (i : Nat) (stats : SyncStats) (store : Store) (t : Task),
    (ts.map Task.id).Nodup → t ∈ ts →
    jlookup (syncGo index idN false (fun _ => false) ts i stats store).2 t.id
      = (match taskDecision index idN t with
         | Decision.skip => jlookup store t.id
         | Decision.create => some (createdPage t (format_notion_properties t idN))
         | Decision.update =>
             some (updatedPage (pageFor index t.id) (format_notion_properties t idN))) := by
  intro ts
  induction ts with
  | nil => intro i stats store t _ ht; exact absurd ht (by simp)
  | cons u ts ih =>
    intro i stats store t hnd ht
    simp only [List.map_cons, List.nodup_cons] at hnd
    obtain ⟨hu, hnd2⟩ := hnd
    rcases List.mem_cons.mp ht with rfl | ht2
    · -- t is the head: its step writes (or keeps) and the tail leaves the key alone
      have hnotmem : t.id ∉ ts.map Task.id := hu
      cases hd : taskDecision index idN t with
      | skip =>
        simp only [syncGo, hd]
        rw [syncGo_frame index idN false _ ts (i + 1) _ store t.id hnotmem]
      | update =>
        simp only [syncGo, hd, Bool.false_eq_true, if_false]
        rw [syncGo_frame index idN false _ ts (i + 1) _ _ t.id hnotmem]
        rw [jlookup_jInsert_self]
      | create =>
        simp only [syncGo, hd, Bool.false_eq_true, if_false]
        rw [syncGo_frame index idN false _ ts (i + 1) _ _ t.id hnotmem]
        rw [jlookup_jInsert_self]
    · -- t is in the tail; the head writes at a different key
      have htid : t.id ∈ ts.map Task.id := List.mem_map_of_mem Task.id ht2
      have hne : t.id ≠ u.id := fun e => hu (e ▸ htid)
      cases hd : taskDecision index idN u with
      | skip =>
        simp only [syncGo, hd]
        exact ih _ _ _ t hnd2 ht2
      | update =>
        simp only [syncGo, hd, Bool.false_eq_true, if_false]
        rw [ih _ _ _ t hnd2 ht2]
        cases hdt : taskDecision index idN t <;> simp [jlookup_jInsert_ne store u.id _ t.id hne]
      | create =>
        simp only [syncGo, hd, Bool.false_eq_true, if_false]
        rw [ih _ _ _ t hnd2 ht2]
        cases hdt : taskDecision index idN t <;> simp [jlookup_jInsert_ne store u.id _ t.id hne]

theorem syncGo_all_skip (index : Store) (idN : String) (dry : Bool) (f : Nat → Bool) :
    ∀ (ts : List Task) (i : Nat) (stats : SyncStats) (store : Store),
    (∀ t ∈ ts, taskDecision index idN t = Decision.skip) →
    syncGo index idN dry f ts i stats store
      = ({ stats with skipped := stats.skipped + ts.length }, store) := by
  intro ts
  induction ts with
  | nil => intro i stats store _; simp [syncGo]
  | cons t ts ih =>
    intro i stats store hall
    have hd := hall t (by simp)
    simp only [syncGo, hd]
    rw [ih (i + 1) _ store (fun u hu => hall u (by simp [hu]))]
    simp only [List.length_cons]
    have harith : stats.skipped + 1 + ts.length = stats.skipped + (ts.length + 1) := by omega
    rw [harith]

theorem syncGo_snd_dry (index : Store) (idN : String) (f : Nat → Bool) :
    ∀ (ts : List Task) (i : Nat) (stats : SyncStats) (store : Store),
    (syncGo index idN true f ts i stats store).2 = store := by
  intro ts
  induction ts with
  | nil => intro i stats store; simp [syncGo]
  | cons t ts ih =>
    intro i stats store
    cases hd : taskDecision index idN t <;> simp only [syncGo, hd, if_true] <;> exact ih _ _ _

theorem outcomesFrom_dry (index : Store) (idN : String) (f : Nat → Bool) :
    ∀ (i : Nat) (ts : List Task),
    outcomesFrom index idN true f i ts
      = outcomesFrom index idN false (fun _ => false) i ts := by
  intro i ts
  induction ts generalizing i with
  | nil => simp [outcomesFrom]
  | cons t ts ih =>
    have hhead : outcomeOf index idN true f i t
        = outcomeOf index idN false (fun _ => false) i t := by
      unfold outcomeOf
      cases taskDecision index idN t <;> simp
    simp only [outcomesFrom, hhead, ih (i + 1)]

/-! ## The claims -/

/-- C5: for every document on which flatten_roadmap succeeds, the
resulting Task records are, in document order (phase, then epic, then
task), exactly one per task entry whose id and title are both non-empty
strings, as witnessed by their (id, title) projections; entries missing
either are absent. -/
theorem flatten_valid_entries (d : J) (ts : List Task)
    (h : flatten_roadmap d = Except.ok ts) :
    ts.map (fun t => (t.id, t.title)) = specValidTaskEntries d := by
  unfold flatten_roadmap at h
  by_cases hd : (!d.isDict) = true
  · rw [if_pos hd] at h
    cases h
  · rw [if_neg hd] at h
    cases hc : coerceList (d.get "phases") with
    | none => rw [hc] at h; cases h
    | some ps =>
      rw [hc] at h
      rw [flattenPhases_ok_proj ps ts h]
      unfold specValidTaskEntries listOrEmpty
      rw [hc]
      rfl

/-- C5 witness: the sample document flattens to two tasks, skipping the
entry with a missing id, in document order. -/
theorem flatten_valid_entries_witness :
    flatten_roadmap sampleDoc = Except.ok
      [{ id := "T1", title := "Task 1", status := "Not Started", priority := "Medium",
         owner := "Unassigned", description := "", dependencies := [],
         phase_name := "P1", epic_title := "E1" },
       { id := "T2", title := "Task 2", status := "Done", priority := "Medium",
         owner := "Unassigned", description := "", dependencies := ["T1"],
         phase_name := "P1", epic_title := "E1" }] ∧
    ([{ id := "T1", title := "Task 1", status := "Not Started", priority := "Medium",
        owner := "Unassigned", description := "", dependencies := [],
        phase_name := "P1", epic_title := "E1" },
      { id := "T2", title := "Task 2", status := "Done", priority := "Medium",
        owner := "Unassigned", description := "", dependencies := ["T1"],
        phase_name := "P1", epic_title := "E1" }] : List Task).map (fun t => (t.id, t.title))
      = specValidTaskEntries sampleDoc := by
  refine ⟨rfl, ?_⟩
  exact flatten_valid_entries sampleDoc _ rfl

/-- C7 (amended): on every root mapping whose phase and epic list
elements are mappings and whose task entries are mappings or falsy (any
other element makes Python raise AttributeError at a .get lookup, a
failure that is not the load error and that preempts the list checks),
flatten_roadmap fails with a load error exactly when the phases key, the
epics key of some phase, or the tasks key of some epic holds a value
that is truthy and not a sequence; a falsy non-sequence value (such as
0, the empty string or an empty mapping) is coerced to the empty
sequence and does not raise. -/
theorem flatten_error_iff_truthy_nonlist (d : J) (hd : docOk d = true) :
    isLoadError (flatten_roadmap d) = badDoc d :=
  flatten_isError_of_docOk d hd

/-- C7 witness: a document whose only phase is a mapping carrying a
truthy non-list under epics: no AttributeError path, and the run ends in
the load error exactly as badDoc says. -/
theorem flatten_error_iff_truthy_nonlist_witness :
    docOk (J.obj [("phases", J.arr [J.obj [("epics", J.str "x")]])]) = true
    ∧ badDoc (J.obj [("phases", J.arr [J.obj [("epics", J.str "x")]])]) = true
    ∧ isLoadError (flatten_roadmap (J.obj [("phases", J.arr [J.obj [("epics", J.str "x")]])]))
        = badDoc (J.obj [("phases", J.arr [J.obj [("epics", J.str "x")]])]) := by
  refine ⟨by decide, by decide, ?_⟩
  exact flatten_error_iff_truthy_nonlist
    (J.obj [("phases", J.arr [J.obj [("epics", J.str "x")]])]) (by decide)

/-- C7 counterexample: the claim states that any present non-sequence
value under phases, including the falsy 0, causes a load error; the
code coerces the falsy 0 to the empty list and succeeds with no
tasks. -/
theorem flatten_falsy_phases_cex :
    flatten_roadmap (J.obj [("phases", J.num 0)]) = Except.ok [] := rfl

/-- C8: needs_update is reflexive: wrapping any payload as the
properties of an existing record and comparing against the same payload
yields false, the falsy payloads being normalized like the empty
mapping on both sides. -/
theorem needs_update_reflexive (payload : J) (id_property_name : String) :
    needs_update (J.obj [("properties", payload)]) payload id_property_name = false :=
  needs_update_wrap_self payload id_property_name

/-- C2 (amended): the comparison view of the dependencies field is the
comma-space join of the dependency list in source order, so the views of
two payloads differing only in their dependency lists are equal exactly
when the joins are equal; a permutation that changes the join, such as
from T0, T2 to T2, T0, makes needs_update true rather than false. -/
theorem needs_update_dependencies_order (t : Task) (d2 : List String) (id_property_name : String) :
    needs_update (J.obj [("properties", format_notion_properties t id_property_name)])
        (format_notion_properties { t with dependencies := d2 } id_property_name)
        id_property_name
      = decide (String.intercalate ", " t.dependencies ≠ String.intercalate ", " d2) :=
  needs_update_deps_join t d2 id_property_name

/-- C2 counterexample: the claim states that payloads differing only in
the order of the dependency lists T0, T2 and T2, T0 normalize
identically and needs_update is false; the code compares the joined
strings and reports true. -/
theorem needs_update_dependencies_order_cex :
    needs_update
        (J.obj [("properties",
          format_notion_properties { sampleTask with dependencies := ["T0", "T2"] } "ID")])
        (format_notion_properties { sampleTask with dependencies := ["T2", "T0"] } "ID")
        "ID" = true := by decide

/-- C3 (amended): needs_update is sensitive to exactly the nine tracked
keys: the identifier property name, Task Name, Status, Priority, Owner,
Phase, Epic, Description and Dependencies (two more than the claim
lists: Phase and Epic are also tracked).  Starting from a record and
payload in agreement, setting a key outside that set leaves needs_update
false, and setting a tracked key to a differently normalizing value
makes it true; stated for an identifier property name that does not
collide with a fixed key. -/
theorem needs_update_tracked_fields (page : J) (kvs : List (String × J))
    (id_property_name k : String) (v : J)
    (hid : id_property_name ∉ fixedPropNames)
    (hbase : needs_update page (J.obj kvs) id_property_name = false) :
    (k ∉ trackedKeys id_property_name →
      needs_update page (J.obj (jInsert kvs k v)) id_property_name = false)
    ∧ (k ∈ trackedKeys id_property_name →
        entryFor id_property_name k (J.obj (jInsert kvs k v))
          ≠ entryFor id_property_name k (J.obj kvs) →
        needs_update page (J.obj (jInsert kvs k v)) id_property_name = true) := by
  constructor
  · intro hk
    rw [needs_update_untracked_insensitive page kvs id_property_name k v hk]
    exact hbase
  · intro hk hch
    exact needs_update_tracked_sensitive page kvs id_property_name k v hid hk hbase hch

/-- C3 witness: a record in agreement with the empty payload; setting
the tracked key Phase to a select naming Phase 2 changes the normalized
entry and needs_update becomes true. -/
theorem needs_update_tracked_fields_witness :
    ("ID" ∉ fixedPropNames) ∧
    needs_update emptyPage (J.obj []) "ID" = false ∧
    ("Phase" ∈ trackedKeys "ID") ∧
    entryFor "ID" "Phase" (J.obj (jInsert [] "Phase" phaseSelectP2))
      ≠ entryFor "ID" "Phase" (J.obj []) ∧
    needs_update emptyPage (J.obj (jInsert [] "Phase" phaseSelectP2)) "ID" = true := by
  refine ⟨by decide, by decide, by decide, by decide, ?_⟩
  exact (needs_update_tracked_fields emptyPage [] "ID" "Phase" phaseSelectP2
    (by decide) (by decide)).2 (by decide) (by decide)

/-- C3 counterexample: the claim lists the tracked fields as status,
priority, owner, description, dependencies, identifier and title, so
changing only the Phase field should leave needs_update false; the code
tracks Phase too and reports true. -/
theorem needs_update_phase_tracked_cex :
    needs_update emptyPage (J.obj []) "ID" = false ∧
    needs_update emptyPage (J.obj [("Phase", phaseSelectP2)]) "ID" = true := by
  exact ⟨by decide, by decide⟩

/-- C10 (amended): for an identifier property name that does not collide
with one of the eight fixed property names, the comparison view of the
payload built for a task maps the identifier name to the task id, Task
Name to the title, Status to the status, Priority to the priority, Owner
to the owner, Phase to the phase name, Epic to the epic title,
Description to the description and Dependencies to the comma-space join
of the dependencies. -/
theorem view_of_format_payload (t : Task) (id_property_name : String)
    (hid : id_property_name ∉ fixedPropNames) :
    simple_property_view (format_notion_properties t id_property_name) id_property_name =
      [(id_property_name, SVal.s t.id),
       ("Task Name", SVal.s t.title),
       ("Status", SVal.s t.status),
       ("Priority", SVal.s t.priority),
       ("Owner", SVal.s t.owner),
       ("Phase", SVal.s t.phase_name),
       ("Epic", SVal.s t.epic_title),
       ("Description", SVal.s t.description),
       ("Dependencies", SVal.s (String.intercalate ", " t.dependencies))] :=
  view_of_format t id_property_name hid

/-- C10 witness: the view of the payload for the sample task at the
default identifier property name. -/
theorem view_of_format_payload_witness :
    ("ID" ∉ fixedPropNames) ∧
    simple_property_view (format_notion_properties sampleTask "ID") "ID" =
      [("ID", SVal.s "T1"), ("Task Name", SVal.s "Task 1"), ("Status", SVal.s "In Progress"),
       ("Priority", SVal.s "High"), ("Owner", SVal.s "Alex"), ("Phase", SVal.s "Phase 1"),
       ("Epic", SVal.s "Epic A"), ("Description", SVal.s "First task"),
       ("Dependencies", SVal.s "T0")] := by
  refine ⟨by decide, ?_⟩
  have h := view_of_format_payload sampleTask "ID" (by decide)
  simpa [sampleTask] using h

/-- C10 counterexample: with the identifier property name Status, the
claim requires the view to map Status, the identifier field name, to the
task id T1; the later fixed Status entry overwrites the identifier
entry and the code yields the status value In Progress instead. -/
theorem view_of_format_collision_cex :
    svLookup (simple_property_view (format_notion_properties sampleTask "Status") "Status")
        "Status" = some (SVal.s "In Progress")
    ∧ SVal.s "In Progress" ≠ SVal.s sampleTask.id := by decide

/-- C6: in dry run mode the loop issues no write, leaving the remote
store exactly the fetched index, while the counters equal those of a
non-dry run over the same tasks and index in which every write
succeeds (creations and updates are counted as if performed, and no
write can fail since none is sent). -/
theorem sync_dry_run_counts (tasks : List Task) (index : Store)
    (id_property_name : String) (apiFails : Nat → Bool) :
    sync_roadmap_to_notion tasks index id_property_name true apiFails
      = ((sync_roadmap_to_notion tasks index id_property_name false (fun _ => false)).1,
         index) := by
  unfold sync_roadmap_to_notion
  refine Prod.ext_iff.mpr ⟨?_, ?_⟩
  · rw [syncGo_fst, syncGo_fst, outcomesFrom_dry]
  · exact syncGo_snd_dry index id_property_name apiFails tasks 0 _ index

/-- C9: every task contributes exactly one outcome, so the counters
returned by the loop always partition the task list: created plus
updated plus skipped plus failed equals the number of tasks, whichever
writes the remote accepts or rejects and whether or not the run is
dry. -/
theorem sync_counters_partition (tasks : List Task) (index : Store)
    (id_property_name : String) (dry_run : Bool) (apiFails : Nat → Bool) :
    (sync_roadmap_to_notion tasks index id_property_name dry_run apiFails).1.created
      + (sync_roadmap_to_notion tasks index id_property_name dry_run apiFails).1.updated
      + (sync_roadmap_to_notion tasks index id_property_name dry_run apiFails).1.skipped
      + (sync_roadmap_to_notion tasks index id_property_name dry_run apiFails).1.failed
      = tasks.length := by
  unfold sync_roadmap_to_notion
  rw [syncGo_fst, tally_counts]
  simp only [Nat.zero_add]
  rw [countO_total, outcomesFrom_length]

/-- C4: when the single write a task issues fails with an API error and
every other write succeeds, the failure counter ends at exactly one, the
loop is not aborted, the outcome of every other task is unchanged (the
outcome list is the no-failure list with only that position replaced by
a failure), and the counters still partition the task list. -/
theorem sync_single_failure_isolated (tasks : List Task) (index : Store)
    (id_property_name : String) (i : Nat) (hi : i < tasks.length)
    (hw : taskDecision index id_property_name (tasks.get ⟨i, hi⟩) ≠ Decision.skip) :
    ((sync_roadmap_to_notion tasks index id_property_name false (fun j => decide (j = i))).1.failed
        = (sync_roadmap_to_notion tasks index id_property_name false (fun _ => false)).1.failed + 1)
    ∧ (sync_roadmap_to_notion tasks index id_property_name false (fun _ => false)).1.failed = 0
    ∧ ((sync_roadmap_to_notion tasks index id_property_name false (fun j => decide (j = i))).1.skipped
        = (sync_roadmap_to_notion tasks index id_property_name false (fun _ => false)).1.skipped)
    ∧ ((sync_roadmap_to_notion tasks index id_property_name false (fun j => decide (j = i))).1.created
        + (sync_roadmap_to_notion tasks index id_property_name false (fun j => decide (j = i))).1.updated + 1
        = (sync_roadmap_to_notion tasks index id_property_name false (fun _ => false)).1.created
          + (sync_roadmap_to_notion tasks index id_property_name false (fun _ => false)).1.updated)
    ∧ ((sync_roadmap_to_notion tasks index id_property_name false (fun j => decide (j = i))).1.created
        + (sync_roadmap_to_notion tasks index id_property_name false (fun j => decide (j = i))).1.updated
        + (sync_roadmap_to_notion tasks index id_property_name false (fun j => decide (j = i))).1.skipped
        + (sync_roadmap_to_notion tasks index id_property_name false (fun j => decide (j = i))).1.failed
        = tasks.length)
    ∧ outcomesFrom index id_property_name false (fun j => decide (j = i)) 0 tasks
        = (outcomesFrom index id_property_name false (fun _ => false) 0 tasks).set i
            Outcome.failed := by
  have hset := outcomesFrom_fail_at index id_property_name tasks 0 i hi hw
  rw [Nat.zero_add] at hset
  have hget := outcomesFrom_getElem index id_property_name false (fun _ => false) tasks 0 i hi
  rw [Nat.zero_add] at hget
  have hg : outcomeOf index id_property_name false (fun _ => false) i (tasks.get ⟨i, hi⟩)
        = Outcome.created
      ∨ outcomeOf index id_property_name false (fun _ => false) i (tasks.get ⟨i, hi⟩)
        = Outcome.updated := by
    unfold outcomeOf
    cases hd : taskDecision index id_property_name (tasks.get ⟨i, hi⟩) with
    | skip => exact absurd hd hw
    | update => right; simp
    | create => left; simp
  have hnofail := countO_no_failed index id_property_name 0 tasks
  have hlen := outcomesFrom_length index id_property_name false (fun _ => false) 0 tasks
  have htot := countO_total
    ((outcomesFrom index id_property_name false (fun _ => false) 0 tasks).set i Outcome.failed)
  rw [List.length_set, hlen] at htot
  rcases hg with hg | hg <;>
  · rw [hg] at hget
    have hc := countO_set Outcome.created Outcome.failed _ i _ hget
    have hu := countO_set Outcome.updated Outcome.failed _ i _ hget
    have hs := countO_set Outcome.skipped Outcome.failed _ i _ hget
    have hf := countO_set Outcome.failed Outcome.failed _ i _ hget
    simp at hc hu hs hf
    unfold sync_roadmap_to_notion
    rw [syncGo_fst, syncGo_fst, tally_counts, tally_counts, hset]
    dsimp only
    refine ⟨?_, ?_, ?_, ?_, ?_, rfl⟩ <;> omega

/-- C4 witness: a single task whose create fails ends the run with one
failure and no other outcome. -/
theorem sync_single_failure_isolated_witness :
    taskDecision [] "ID" (([sampleTask] : List Task).get ⟨0, by decide⟩) ≠ Decision.skip
    ∧ (sync_roadmap_to_notion [sampleTask] [] "ID" false (fun j => decide (j = 0))).1.failed
        = 1 := by
  refine ⟨by decide, ?_⟩
  have h := sync_single_failure_isolated [sampleTask] [] "ID" 0 (by decide) (by decide)
  obtain ⟨h1, h2, _⟩ := h
  omega

/-- C1 (amended): for every task list whose ids are pairwise distinct
and every remote index, a run in which every issued create and update is
applied verbatim to the remote store leaves a store on which an
immediately repeated run over the unchanged tasks decides skip for every
task: the second run returns created 0, updated 0, failed 0 and skipped
equal to the task count, whatever the remote would answer to writes the
second run does not issue. -/
theorem sync_idempotent_of_nodup_ids (tasks : List Task) (index : Store)
    (id_property_name : String) (g : Nat → Bool)
    (hnd : (tasks.map Task.id).Nodup) :
    (sync_roadmap_to_notion tasks
        (sync_roadmap_to_notion tasks index id_property_name false (fun _ => false)).2
        id_property_name false g).1
      = { created := 0, updated := 0, skipped := tasks.length, failed := 0 } := by
  have hall : ∀ t ∈ tasks,
      taskDecision (sync_roadmap_to_notion tasks index id_property_name false
        (fun _ => false)).2 id_property_name t = Decision.skip := by
    intro t ht
    have hat := syncGo_at index id_property_name tasks 0
      { created := 0, updated := 0, skipped := 0, failed := 0 } index t hnd ht
    rw [taskDecision_skip_iff]
    cases hd : taskDecision index id_property_name t with
    | skip =>
      rw [hd] at hat
      obtain ⟨htr, hnu⟩ := (taskDecision_skip_iff index id_property_name t).mp hd
      have hpf : pageFor (sync_roadmap_to_notion tasks index id_property_name false
          (fun _ => false)).2 t.id = pageFor index t.id := by
        unfold pageFor
        unfold sync_roadmap_to_notion
        rw [hat]
      rw [hpf]
      exact ⟨htr, hnu⟩
    | create =>
      rw [hd] at hat
      have hpf : pageFor (sync_roadmap_to_notion tasks index id_property_name false
          (fun _ => false)).2 t.id
          = createdPage t (format_notion_properties t id_property_name) := by
        unfold pageFor
        unfold sync_roadmap_to_notion
        rw [hat]
        rfl
      rw [hpf]
      refine ⟨rfl, ?_⟩
      exact needs_update_applied (format_notion_properties t id_property_name)
        (J.str t.id) id_property_name (format_truthy t id_property_name)
    | update =>
      rw [hd] at hat
      have hpf : pageFor (sync_roadmap_to_notion tasks index id_property_name false
          (fun _ => false)).2 t.id
          = updatedPage (pageFor index t.id)
              (format_notion_properties t id_property_name) := by
        unfold pageFor
        unfold sync_roadmap_to_notion
        rw [hat]
        rfl
      rw [hpf]
      refine ⟨rfl, ?_⟩
      exact needs_update_applied (format_notion_properties t id_property_name)
        ((pageFor index t.id).get "id") id_property_name
        (format_truthy t id_property_name)
  show (syncGo _ id_property_name false g tasks 0
      { created := 0, updated := 0, skipped := 0, failed := 0 } _).1
    = { created := 0, updated := 0, skipped := tasks.length, failed := 0 }
  rw [syncGo_all_skip _ id_property_name false g tasks 0 _ _ hall]
  simp

/-- C1 witness: one task against the empty index; the second run skips
it regardless of the failure oracle. -/
theorem sync_idempotent_of_nodup_ids_witness :
    (([sampleTask].map Task.id).Nodup) ∧
    (sync_roadmap_to_notion [sampleTask]
        (sync_roadmap_to_notion [sampleTask] [] "ID" false (fun _ => false)).2
        "ID" false (fun _ => true)).1
      = { created := 0, updated := 0, skipped := 1, failed := 0 } := by
  refine ⟨by decide, ?_⟩
  have h := sync_idempotent_of_nodup_ids [sampleTask] [] "ID" (fun _ => true) (by decide)
  simpa using h

/-- C1 counterexample: the claim quantifies over every task list, but
for two tasks sharing the id T with different titles the store after the
first run holds the later payload, so the second run issues an update
for the first task: updated is 1, not 0. -/
theorem sync_idempotent_duplicate_ids_cex :
    (sync_roadmap_to_notion [dupTaskA, dupTaskB]
        (sync_roadmap_to_notion [dupTaskA, dupTaskB] [] "ID" false (fun _ => false)).2
        "ID" false (fun _ => false)).1.updated = 1 := by decide

end NotionSync
